import Mathlib

/-!
Verification of the NiftyNet `ImageReader` core
(`niftynet/io/image_reader.py`).

The Python module is shallowly embedded below:
* Python exceptions become the `PyErr` type and fallible code returns
  `Except PyErr _`.
* `pandas.DataFrame`s become `DataFrame` (a payload-column-name list plus
  rows of `subject_id × payload`); `pandas.merge(·, ·, on='subject_id')`
  with its default inner-join semantics (duplicate keys produce a row per
  matching pair) becomes `mergeRows`.
* Python dicts keyed by field/section names become association lists
  (`List (String × _)`), which also model the insertion order that Python
  dicts preserve.
* The mutable reader object becomes the `ImageReader` structure passed and
  returned explicitly; `np.random.randint(n)` is modelled by a caller
  supplied draw `rng` reduced mod `n`, raising `ValueError` when `n = 0`
  exactly as numpy does.
* `deepcopy` of the preprocessor list has no observable effect in a pure
  model, so the per-access copy is the list itself; the per-layer
  `randomise()` call is modelled by feeding each `RandomisedLayer` the next
  element of a fresh-randomness stream `rs : Nat → ρ`.
* `tf.logging.fatal`/`warning` are observational; fatal logs are always
  followed by a raise (modelled by the returned `PyErr`), warnings are
  collected in a list where a claim needs them.
* Index arguments reaching `layer_op` are modelled as Python ints or
  strings (`PyVal`); `int(·)` on these raises exactly `ValueError` on an
  unparseable string, which is the exception the source catches.
-/

namespace NiftyNet

/-- Python exception kinds raised (or caught) by the embedded code. -/
inductive PyErr where
  | valueError
  | ioError
  | runtimeError
  | keyError
  | attributeError
  | indexError
  | typeError
deriving DecidableEq, Repr

/-- A Python value passed as the `idx` argument of `layer_op`. -/
inductive PyVal where
  | pyInt (i : Int)
  | pyStr (s : String)
deriving DecidableEq, Repr

/-- Decimal digit of a character, `none` otherwise. -/
def pyDigit? (c : Char) : Option Nat :=
  if c = '0' then some 0 else if c = '1' then some 1 else if c = '2' then some 2
  else if c = '3' then some 3 else if c = '4' then some 4 else if c = '5' then some 5
  else if c = '6' then some 6 else if c = '7' then some 7 else if c = '8' then some 8
  else if c = '9' then some 9 else none

/-- Accumulate a decimal number over characters, `none` on the first
non-digit. -/
def pyDigitsAux : List Char → Nat → Option Nat
  | [], acc => some acc
  | c :: cs, acc =>
    match pyDigit? c with
    | none => none
    | some d => pyDigitsAux cs (acc * 10 + d)

/-- Python `int(str)`: an optional minus sign followed by at least one
decimal digit parses, anything else raises `ValueError`. -/
def py_str_to_int (s : String) : Option Int :=
  match s.data with
  | [] => none
  | '-' :: cs =>
    match cs with
    | [] => none
    | _ => (pyDigitsAux cs 0).map (fun n => -(n : Int))
  | cs => (pyDigitsAux cs 0).map (fun n => (n : Int))

/-- Python `int(·)` on the modelled values: identity on ints, parse on
strings, raising `ValueError` on an unparseable string. -/
def py_int : PyVal → Except PyErr Int
  | .pyInt i => .ok i
  | .pyStr s =>
    match py_str_to_int s with
    | some i => .ok i
    | none => .error .valueError

/-- The 32-bit tensorflow dtypes that `infer_tf_dtypes` can produce. -/
inductive TfDtype where
  | int32
  | float32
deriving DecidableEq, Repr

/-- An image handle produced by the external `ImageFactory` collaborator:
the capabilities the reader uses are `get_data()`, `interp_order`, `shape`
and the numpy dtype kind character of its data. -/
structure Image (δ : Type) where
  get_data : δ
  interp_order : List Nat
  shape : List Nat
  dtypeKind : Char
deriving DecidableEq, Repr

/-- `NP_TF_DTYPES = {'i': tf.int32, 'u': tf.int32, 'b': tf.int32,
'f': tf.float32}`. -/
def NP_TF_DTYPES : List (Char × TfDtype) :=
  [('i', .int32), ('u', .int32), ('b', .int32), ('f', .float32)]

/-- Association-list lookup, modelling Python `dict.get`. -/
def alGet {κ α : Type} [DecidableEq κ] : List (κ × α) → κ → Option α
  | [], _ => none
  | (k', v) :: rest, k => if k' = k then some v else alGet rest k

/-- `infer_tf_dtypes(image_array)`: look the dtype kind up in
`NP_TF_DTYPES`, defaulting to `tf.float32`. -/
def infer_tf_dtypes {δ : Type} (img : Image δ) : TfDtype :=
  (alGet NP_TF_DTYPES img.dtypeKind).getD .float32

/-- Effectful map over a list in the `Except` monad, written as plain
recursion so that it inverts easily: the Python `for` loops and dict
comprehensions that can raise are instances of this scheme. -/
def mapE {α β : Type} (f : α → Except PyErr β) : List α → Except PyErr (List β)
  | [] => .ok []
  | a :: as =>
    match f a with
    | .error e => .error e
    | .ok b =>
      match mapE f as with
      | .error e => .error e
      | .ok bs => .ok (b :: bs)

/-- Turn an `Option` into an `Except`, raising `e` on `none` (Python
`d[k]` raising `KeyError`, etc.). -/
def expectE {α : Type} (o : Option α) (e : PyErr) : Except PyErr α :=
  match o with
  | none => .error e
  | some a => .ok a

/-! ### DataFrames and `load_and_merge_csv_files` -/

/-- A pandas `DataFrame` as produced by `read_csv`/`merge` here: the
`subject_id` column is the first component of each row, `cols` names the
remaining (modality) columns and each row's payload is aligned with
`cols`. -/
structure DataFrame where
  cols : List String
  rows : List (String × List String)
deriving DecidableEq, Repr

/-- `pandas.read_csv(csv_file, header=None,
names=['subject_id', modality_name])` applied to the raw
(subject_id, path) pairs of the file. -/
def read_csv (modality_name : String) (raw : List (String × String)) : DataFrame :=
  ⟨[modality_name], raw.map (fun p => (p.1, [p.2]))⟩

/-- Row-level `pandas.merge(rows1, rows2, on='subject_id')`: default inner
join; every pair of rows sharing a subject id yields one joint row, in
left-table order. -/
def mergeRows (rows1 rows2 : List (String × List String)) : List (String × List String) :=
  match rows1 with
  | [] => []
  | r1 :: rest =>
    (rows2.filter (fun r2 => decide (r2.1 = r1.1))).map (fun r2 => (r1.1, r1.2 ++ r2.2))
      ++ mergeRows rest rows2

/-- `pandas.merge(t1, t2, on='subject_id')` on whole frames. -/
def innerMerge (t1 t2 : DataFrame) : DataFrame :=
  ⟨t1.cols ++ t2.cols, mergeRows t1.rows t2.rows⟩

/-- `DataFrame.size`: number of cells (rows × columns, the subject_id
column included). -/
def DataFrame.size (df : DataFrame) : Nat :=
  df.rows.length * (1 + df.cols.length)

/-- `df.loc[idx, mod]`: cell of row `idx` in column `mod`; missing row or
column raises `KeyError`. -/
def DataFrame.locCell (df : DataFrame) (idx : Nat) (mod : String) : Except PyErr String :=
  match df.rows.get? idx with
  | none => .error .keyError
  | some row =>
    if mod = "subject_id" then .ok row.1
    else
      match df.cols.findIdx? (fun c => decide (c = mod)) with
      | none => .error .keyError
      | some pos =>
        match row.2.get? pos with
        | none => .error .keyError
        | some v => .ok v

/-- Per-modality configuration section (`data_param` entry): backing csv
file, interpolation order, target pixel spacing, axis codes. -/
structure DataSpec where
  csv_file : String
  interp_order : Nat
  pixdim : List Int
  axcodes : String
deriving DecidableEq, Repr

/-- The loop body of `load_and_merge_csv_files`: iterate the
`data_param` sections in order, check each backing csv file exists
(`IOError` otherwise), read it, and fold by inner-merging on
`subject_id`; when a merge changes the accumulated row count the csv file
name is logged as a warning (collected in `warns`).  The accumulator is
`none` before the first section (Python `_file_list = None`). -/
def loadLoop (data : List (String × DataSpec)) (files : String → Option (List (String × String)))
    (acc : Option DataFrame) (warns : List String) :
    Except PyErr (Option DataFrame × List String) :=
  match data with
  | [] => .ok (acc, warns)
  | (modality_name, spec) :: rest =>
    match files spec.csv_file with
    | none => .error .ioError
    | some raw =>
      let csv_list := read_csv modality_name raw
      match acc with
      | none => loadLoop rest files (some csv_list) warns
      | some fl =>
        let n_rows := fl.rows.length
        let merged := innerMerge fl csv_list
        loadLoop rest files (some merged)
          (if merged.rows.length ≠ n_rows then warns ++ [spec.csv_file] else warns)

/-- `ImageReader.load_and_merge_csv_files(data_param)`, with the
filesystem abstracted as `files : path → Option raw-csv-rows` (`none`
models `not os.path.isfile`).  After the loop the Python code evaluates
`_file_list.size == 0`: on an empty `data_param` the accumulator is still
`None` and `.size` raises `AttributeError`; otherwise a zero-size result
raises `IOError` and any other result is returned (with the warning
log). -/
def load_and_merge_csv_files (data : List (String × DataSpec))
    (files : String → Option (List (String × String))) :
    Except PyErr (DataFrame × List String) :=
  match loadLoop data files none [] with
  | .error e => .error e
  | .ok (none, _) => .error .attributeError
  | .ok (some fl, warns) =>
    if fl.size = 0 then .error .ioError else .ok (fl, warns)

/-! ### `create_image` and `filename_to_image_list` -/

/-- The property bundle handed to `ImageFactory.create_instance`. -/
structure ImageProps where
  file_path : List String
  name : List String
  interp_order : List Nat
  output_pixdim : List (List Int)
  output_axcodes : List String
deriving DecidableEq, Repr

/-- `create_image(file_list, idx, modalities, data_param)`: gather the
file path, interp order, pixdim and axcodes tuples over the field's
modalities (`KeyError` on a missing modality, re-raised by the source
after logging) and delegate to the external factory. -/
def create_image {δ : Type} (file_list : DataFrame) (idx : Nat) (modalities : List String)
    (data_param : List (String × DataSpec)) (factory : ImageProps → Image δ) :
    Except PyErr (Image δ) :=
  match mapE (fun mod => file_list.locCell idx mod) modalities with
  | .error e => .error e
  | .ok file_path =>
  match mapE (fun mod => expectE ((alGet data_param mod).map DataSpec.interp_order) .keyError)
      modalities with
  | .error e => .error e
  | .ok interp_order =>
  match mapE (fun mod => expectE ((alGet data_param mod).map DataSpec.pixdim) .keyError)
      modalities with
  | .error e => .error e
  | .ok pixdim =>
  match mapE (fun mod => expectE ((alGet data_param mod).map DataSpec.axcodes) .keyError)
      modalities with
  | .error e => .error e
  | .ok axcodes =>
    .ok (factory ⟨file_path, modalities, interp_order, pixdim, axcodes⟩)

/-- `filename_to_image_list(file_list, mod_dict, data_param)`: one record
per joint-table row, keyed by the logical field names of `mod_dict`
(the progress bar call is purely observational and omitted). -/
def filename_to_image_list {δ : Type} (file_list : DataFrame)
    (mod_dict : List (String × List String)) (data_param : List (String × DataSpec))
    (factory : ImageProps → Image δ) :
    Except PyErr (List (List (String × Image δ))) :=
  mapE (fun idx =>
      mapE (fun p =>
          match create_image file_list idx p.2 data_param factory with
          | .error e => .error e
          | .ok img => .ok (p.1, img))
        mod_dict)
    (List.range file_list.rows.length)

/-! ### Preprocessing layers -/

/-- A preprocessing pipeline entry as `layer_op` dispatches on it:
a `None` placeholder (skipped), a `RandomisedLayer` (whose `randomise()`
plus call is modelled as a function of freshly drawn randomness, the data
dict and the interp-order dict), or any other layer (called with the data
dict and the threaded optional mask).  `δ` is the volume-array type, `ι`
the per-field interp-order type, `μ` the mask type, `ρ` the randomness
type. -/
inductive PLayer (δ ι μ ρ : Type) where
  | pyNone
  | randomised (apply : ρ → List (String × δ) → List (String × ι) → List (String × δ))
  | plain (apply : List (String × δ) → Option μ → List (String × δ) × Option μ)

/-- The `for layer in preprocessors` loop of `layer_op`: `k` indexes the
fresh-randomness stream `rs`, `mask` is the dict-of-masks cache threaded
through non-randomised layers (initially `None`). Returns the transformed
data dict, the final mask and the next unused randomness index. -/
def run_preprocessors {δ ι μ ρ : Type} (layers : List (PLayer δ ι μ ρ)) (rs : Nat → ρ)
    (k : Nat) (data : List (String × δ)) (interp : List (String × ι)) (mask : Option μ) :
    List (String × δ) × Option μ × Nat :=
  match layers with
  | [] => (data, mask, k)
  | .pyNone :: rest => run_preprocessors rest rs k data interp mask
  | .randomised f :: rest =>
    run_preprocessors rest rs (k + 1) (f (rs k) data interp) interp mask
  | .plain f :: rest =>
    let out := f data mask
    run_preprocessors rest rs k out.1 interp out.2

/-! ### The reader object -/

/-- The mutable state of an `ImageReader` instance.  `output_list = none`
models the pre-initialisation `None`. -/
structure ImageReader (δ μ ρ : Type) where
  _file_list : Option DataFrame
  _input_sources : Option (List (String × List String))
  _shapes : Option (List (String × List Nat))
  _dtypes : Option (List (String × TfDtype))
  _names : List String
  output_list : Option (List (List (String × Image δ)))
  current_id : Int
  preprocessors : List (PLayer δ (List Nat) μ ρ)

/-- `ImageReader.__init__(names)`. -/
def ImageReader.new {δ μ ρ : Type} (names : List String) : ImageReader δ μ ρ where
  _file_list := none
  _input_sources := none
  _shapes := none
  _dtypes := none
  _names := names
  output_list := none
  current_id := -1
  preprocessors := []

/-- `vars(task_param).get(name, None)` flattened to the (possibly empty)
source list: the absent case and the empty case are both modelled by
`[]`, matching Python truthiness. -/
def taskGet (task_param : List (String × List String)) (name : String) : List String :=
  (alGet task_param name).getD []

/-- `self._names = [name for name in self.names if
vars(task_param).get(name, None)]`: fields with an absent or empty
task-schema entry are dropped. -/
def active_names (names : List String) (task_param : List (String × List String)) :
    List String :=
  names.filter (fun n => !(taskGet task_param n).isEmpty)

/-- `self._input_sources = {name: vars(task_param).get(name) for name in
self.names}` (at that point `self.names` is already the filtered list). -/
def input_sources_of (names : List String) (task_param : List (String × List String)) :
    List (String × List String) :=
  (active_names names task_param).map (fun n => (n, taskGet task_param n))

/-- The inner `for source in self._input_sources[name]` loop building
`data_to_load`: a source absent from `data_param` is a fatal
`ValueError`; otherwise `data_to_load[source] = data_param[source]`
(dict insertion: first-occurrence position, value unchanged on
re-insertion since it is the same lookup). -/
def sourcesToLoad (srcs : List String) (data_param : List (String × DataSpec))
    (acc : List (String × DataSpec)) : Except PyErr (List (String × DataSpec)) :=
  match srcs with
  | [] => .ok acc
  | s :: rest =>
    match alGet data_param s with
    | none => .error .valueError
    | some spec =>
      sourcesToLoad rest data_param
        (if (alGet acc s).isSome then acc else acc ++ [(s, spec)])

/-- The outer `for name in self._names` loop building `data_to_load`. -/
def buildDataToLoad (pairs : List (String × List String))
    (data_param : List (String × DataSpec)) (acc : List (String × DataSpec)) :
    Except PyErr (List (String × DataSpec)) :=
  match pairs with
  | [] => .ok acc
  | (_, srcs) :: rest =>
    match sourcesToLoad srcs data_param acc with
    | .error e => .error e
    | .ok acc' => buildDataToLoad rest data_param acc'

/-- `ImageReader.initialise_reader(data_param, task_param)` on the state
`r0`, with the filesystem and the image factory as explicit
collaborators.  Empty `self.names` is an immediate `ValueError`; then the
active field set is filtered, `data_to_load` assembled, the csv manifests
merged and the record list built. -/
def initialise_reader {δ μ ρ : Type} (r0 : ImageReader δ μ ρ)
    (data_param : List (String × DataSpec)) (task_param : List (String × List String))
    (files : String → Option (List (String × String))) (factory : ImageProps → Image δ) :
    Except PyErr (ImageReader δ μ ρ) :=
  if r0._names.isEmpty then .error .valueError
  else
    buildDataToLoad (input_sources_of r0._names task_param) data_param [] >>=
      fun data_to_load =>
    load_and_merge_csv_files data_to_load files >>= fun flw =>
    filename_to_image_list flw.1 (input_sources_of r0._names task_param)
        data_param factory >>= fun ol =>
    .ok { r0 with
          _names := active_names r0._names task_param
          _input_sources := some (input_sources_of r0._names task_param)
          _file_list := some flw.1
          output_list := some ol }

/-- The result triple of `layer_op`: resolved index, field→array dict,
field→interp-order dict (the latter two `None` on the sentinel). -/
abbrev AccessResult (δ : Type) :=
  Except PyErr (Int × Option (List (String × δ)) × Option (List (String × List Nat)))

/-- The tail of `layer_op` shared by all three modes, starting from the
already-coerced integer index `j`: bounds check returning the
`(-1, None, None)` sentinel, record fetch, dict assembly and the
preprocessor pass (run on a per-access copy of the pipeline, with the
mask cache starting at `None`). -/
def layer_op_fetch {δ μ ρ : Type} (r : ImageReader δ μ ρ) (j : Int) (rs : Nat → ρ) :
    AccessResult δ × ImageReader δ μ ρ :=
  match r.output_list with
  | none => (.error .typeError, r)
  | some ol =>
    if j < 0 ∨ (ol.length : Int) ≤ j then (.ok (-1, none, none), r)
    else
      match ol.get? j.toNat with
      | none => (.error .indexError, r)
      | some image_dict =>
        let image_data_dict := image_dict.map (fun p => (p.1, p.2.get_data))
        let interp_order_dict := image_dict.map (fun p => (p.1, p.2.interp_order))
        let final :=
          if r.preprocessors.isEmpty then image_data_dict
          else (run_preprocessors r.preprocessors rs 0 image_data_dict
                  interp_order_dict none).1
        (.ok (j, some final, some interp_order_dict), r)

/-- The `idx is None and shuffle` branch of `layer_op`: draw
`np.random.randint(len(output_list))` (modelled by `rng % len`, raising
`ValueError` on an empty range as numpy does; `len(None)` on an
uninitialised reader raises `TypeError`). -/
def layer_op_random {δ μ ρ : Type} (r : ImageReader δ μ ρ) (rng : Nat) (rs : Nat → ρ) :
    AccessResult δ × ImageReader δ μ ρ :=
  match r.output_list with
  | none => (.error .typeError, r)
  | some ol =>
    if ol.length = 0 then (.error .valueError, r)
    else layer_op_fetch r ((rng % ol.length : Nat) : Int) rs

/-- The `idx is None and not shuffle` branch of `layer_op`:
`idx = self.current_id + 1; self.current_id = idx`, written back before
the bounds check. -/
def layer_op_sequential {δ μ ρ : Type} (r : ImageReader δ μ ρ) (rs : Nat → ρ) :
    AccessResult δ × ImageReader δ μ ρ :=
  layer_op_fetch { r with current_id := r.current_id + 1 } (r.current_id + 1) rs

/-- The explicit-index path of `layer_op`: `int(idx)` with
`except ValueError: idx = -1`. -/
def layer_op_explicit {δ μ ρ : Type} (r : ImageReader δ μ ρ) (v : PyVal) (rs : Nat → ρ) :
    AccessResult δ × ImageReader δ μ ρ :=
  layer_op_fetch r
    (match py_int v with
     | .ok n => n
     | .error _ => -1) rs

/-- `ImageReader.layer_op(idx, shuffle)`: dispatch over the three access
modes of the source (random, sequential, explicit). -/
def layer_op {δ μ ρ : Type} (r : ImageReader δ μ ρ) (idx : Option PyVal) (shuffle : Bool)
    (rng : Nat) (rs : Nat → ρ) : AccessResult δ × ImageReader δ μ ρ :=
  match idx, shuffle with
  | none, true => layer_op_random r rng rs
  | none, false => layer_op_sequential r rs
  | some v, _ => layer_op_explicit r v rs

/-- The dict comprehension `{field: f(first_image[field]) for field in
self.names}` used by both `shapes` and `tf_dtypes` (a missing field
raises `KeyError`). -/
def computeFieldMap {δ β : Type} (first_image : List (String × Image δ)) (names : List String)
    (f : Image δ → β) : Except PyErr (List (String × β)) :=
  mapE (fun n =>
      match alGet first_image n with
      | none => .error .keyError
      | some img => .ok (n, f img))
    names

/-- Python truthiness of an optional cached dict: `None` and the empty
dict are falsy. -/
def truthyCache {α : Type} : Option (List α) → Bool
  | some (_ :: _) => true
  | _ => false

/-- The `shapes` property: fatal `RuntimeError` when `output_list` is
falsy (uninitialised `None` or empty); recompute from record 0 when the
cache `_shapes` is falsy (`if not self._shapes`), then memoize. -/
def ImageReader.shapes {δ μ ρ : Type} (r : ImageReader δ μ ρ) :
    Except PyErr (List (String × List Nat)) × ImageReader δ μ ρ :=
  match r.output_list with
  | none => (.error .runtimeError, r)
  | some [] => (.error .runtimeError, r)
  | some (first_image :: _) =>
    if truthyCache r._shapes then (.ok (r._shapes.getD []), r)
    else
      match computeFieldMap first_image r._names Image.shape with
      | .error e => (.error e, r)
      | .ok d => (.ok d, { r with _shapes := some d })

/-- The `tf_dtypes` property, same caching discipline as `shapes` with
`infer_tf_dtypes` on record 0. -/
def ImageReader.tf_dtypes {δ μ ρ : Type} (r : ImageReader δ μ ρ) :
    Except PyErr (List (String × TfDtype)) × ImageReader δ μ ρ :=
  match r.output_list with
  | none => (.error .runtimeError, r)
  | some [] => (.error .runtimeError, r)
  | some (first_image :: _) =>
    if truthyCache r._dtypes then (.ok (r._dtypes.getD []), r)
    else
      match computeFieldMap first_image r._names infer_tf_dtypes with
      | .error e => (.error e, r)
      | .ok d => (.ok d, { r with _dtypes := some d })

/-! ### Access traces (for the cursor frame property) -/

/-- One access request: explicit index, random mode (with its draw), or
sequential mode. -/
inductive AccessReq where
  | explicitIdx (v : PyVal)
  | randomDraw (rng : Nat)
  | sequential

/-- Whether a request is a sequential-mode access. -/
def isSequential : AccessReq → Bool
  | .sequential => true
  | _ => false

/-- Perform one request on the reader. -/
def doReq {δ μ ρ : Type} (r : ImageReader δ μ ρ) (rs : Nat → ρ) :
    AccessReq → AccessResult δ × ImageReader δ μ ρ
  | .explicitIdx v => layer_op r (some v) true 0 rs
  | .randomDraw g => layer_op r none true g rs
  | .sequential => layer_op r none false 0 rs

/-- The results served to the sequential-mode requests of a trace, in
order. -/
def seqServed {δ μ ρ : Type} (r : ImageReader δ μ ρ) (rs : Nat → ρ) :
    List AccessReq → List (AccessResult δ)
  | [] => []
  | q :: qs =>
    let out := doReq r rs q
    if isSequential q then out.1 :: seqServed out.2 rs qs
    else seqServed out.2 rs qs

/-- The reader state after `n` sequential-mode accesses. -/
def seqIter {δ μ ρ : Type} (r : ImageReader δ μ ρ) (rs : Nat → ρ) : Nat → ImageReader δ μ ρ
  | 0 => r
  | n + 1 => (layer_op (seqIter r rs n) none false 0 rs).2

/-! ### The pure merge fold (for characterising `load_and_merge_csv_files`) -/

/-- The fold of inner joins over the remaining sections, assuming their
files are present (`getD []` is never reached under that assumption). -/
def foldMergeAcc (data : List (String × DataSpec))
    (files : String → Option (List (String × String))) (acc : DataFrame) : DataFrame :=
  match data with
  | [] => acc
  | (modality_name, spec) :: rest =>
    foldMergeAcc rest files
      (innerMerge acc (read_csv modality_name ((files spec.csv_file).getD [])))

/-- The joint table the merge loop computes when every file is present:
`none` for the empty section collection (the Python accumulator stays
`None` there). -/
def mergedTable (data : List (String × DataSpec))
    (files : String → Option (List (String × String))) : Option DataFrame :=
  match data with
  | [] => none
  | (modality_name, spec) :: rest =>
    some (foldMergeAcc rest files (read_csv modality_name ((files spec.csv_file).getD [])))

/-! ### Concrete scenarios used by the closed witness theorems -/

/-- One modality section backed by `mr.csv`. -/
def dpW : List (String × DataSpec) := [("mr", ⟨"mr.csv", 3, [2, 2], "RAS"⟩)]

/-- Task schema: the `image` field reads the `mr` section. -/
def tpW : List (String × List String) := [("image", ["mr"])]

/-- A filesystem with a single one-row manifest. -/
def filesW : String → Option (List (String × String)) :=
  fun s => if s = "mr.csv" then some [("s1", "p1")] else none

/-- A concrete image factory over `Nat` data. -/
def factoryW : ImageProps → Image Nat :=
  fun p => ⟨0, p.interp_order, [4], 'i'⟩

/-- The image `factoryW` builds for the single record. -/
def imgW : Image Nat := ⟨0, [3], [4], 'i'⟩

/-- The joint table of the `filesW` scenario. -/
def dfW : DataFrame := ⟨["mr"], [("s1", ["p1"])]⟩

/-- The reader produced by initialising `ImageReader.new ["image"]` over
`dpW`/`tpW`/`filesW`/`factoryW`. -/
def rW : ImageReader Nat Nat Nat where
  _file_list := some dfW
  _input_sources := some [("image", ["mr"])]
  _shapes := none
  _dtypes := none
  _names := ["image"]
  output_list := some [[("image", imgW)]]
  current_id := -1
  preprocessors := []

/-- A reader over an explicitly empty catalog. -/
def rE : ImageReader Nat Nat Nat :=
  { ImageReader.new ["x"] with output_list := some [] }

/-- Two sections whose manifests repeat the same subject id. -/
def dpC5 : List (String × DataSpec) :=
  [("m1", ⟨"a.csv", 0, [], ""⟩), ("m2", ⟨"b.csv", 0, [], ""⟩)]

/-- Manifests with a duplicated subject id `s` in both files. -/
def filesC5 : String → Option (List (String × String)) :=
  fun s => if s = "a.csv" then some [("s", "x"), ("s", "y")]
           else if s = "b.csv" then some [("s", "u"), ("s", "v")] else none

/-- Manifests with pairwise-distinct subject ids per file. -/
def filesC5W : String → Option (List (String × String)) :=
  fun s => if s = "a.csv" then some [("s1", "x"), ("s2", "y")]
           else if s = "b.csv" then some [("s2", "u"), ("s3", "v")] else none

/-! ## Helper lemmas -/

section Lemmas

variable {δ ι μ ρ : Type}

/-- `layer_op` with an explicit index is the explicit mode, whatever the
`shuffle` flag. -/
theorem layer_op_some (r : ImageReader δ μ ρ) (v : PyVal) (shuffle : Bool)
    (rng : Nat) (rs : Nat → ρ) :
    layer_op r (some v) shuffle rng rs = layer_op_explicit r v rs := by
  cases shuffle <;> rfl

/-- The tail of `layer_op` never changes the reader state. -/
theorem layer_op_fetch_snd (r : ImageReader δ μ ρ) (j : Int) (rs : Nat → ρ) :
    (layer_op_fetch r j rs).2 = r := by
  unfold layer_op_fetch
  split
  · rfl
  · split
    · rfl
    · split <;> rfl

/-- Explicit-mode access leaves the whole reader state unchanged. -/
theorem layer_op_explicit_snd (r : ImageReader δ μ ρ) (v : PyVal) (shuffle : Bool)
    (rng : Nat) (rs : Nat → ρ) : (layer_op r (some v) shuffle rng rs).2 = r := by
  rw [layer_op_some]
  exact layer_op_fetch_snd r _ rs

/-- Random-mode access leaves the whole reader state unchanged. -/
theorem layer_op_random_snd (r : ImageReader δ μ ρ) (rng : Nat) (rs : Nat → ρ) :
    (layer_op r none true rng rs).2 = r := by
  show (layer_op_random r rng rs).2 = r
  unfold layer_op_random
  split
  · rfl
  · split
    · rfl
    · exact layer_op_fetch_snd _ _ rs

/-- Sequential-mode access exactly increments the cursor. -/
theorem layer_op_seq_snd (r : ImageReader δ μ ρ) (rng : Nat) (rs : Nat → ρ) :
    (layer_op r none false rng rs).2 = { r with current_id := r.current_id + 1 } := by
  show (layer_op_sequential r rs).2 = _
  exact layer_op_fetch_snd _ _ rs

/-- The state after `n` sequential accesses has advanced the cursor by
`n` and nothing else. -/
theorem seqIter_eq (r : ImageReader δ μ ρ) (rs : Nat → ρ) (n : Nat) :
    seqIter r rs n = { r with current_id := r.current_id + n } := by
  induction n with
  | zero => simp [seqIter]
  | succ n ih =>
    rw [seqIter, ih, layer_op_seq_snd]
    congr 1
    push_cast
    ring

/-- `mapE` success means every output element comes from some input
element. -/
theorem mapE_ok_mem {α β : Type} {f : α → Except PyErr β} :
    ∀ {l : List α} {out : List β}, mapE f l = .ok out → ∀ b ∈ out, ∃ a ∈ l, f a = .ok b := by
  intro l
  induction l with
  | nil =>
    intro out h b hb
    simp only [mapE, Except.ok.injEq] at h
    subst h
    cases hb
  | cons a as ih =>
    intro out h b hb
    rw [mapE] at h
    cases hfa : f a with
    | error e => rw [hfa] at h; cases h
    | ok b0 =>
      rw [hfa] at h
      cases hrest : mapE f as with
      | error e => rw [hrest] at h; cases h
      | ok bs =>
        rw [hrest] at h
        cases h
        rcases List.mem_cons.mp hb with hb0 | hbs
        · exact ⟨a, List.mem_cons_self a as, hb0 ▸ hfa⟩
        · obtain ⟨a', ha', hfa'⟩ := ih hrest b hbs
          exact ⟨a', List.mem_cons_of_mem a ha', hfa'⟩

/-- `mapE` with a key-preserving body preserves the key list. -/
theorem mapE_keys {α β : Type} (key : α → String) {f : α → Except PyErr (String × β)}
    (hf : ∀ a b, f a = .ok b → b.1 = key a) :
    ∀ {l : List α} {out : List (String × β)},
      mapE f l = .ok out → out.map Prod.fst = l.map key := by
  intro l
  induction l with
  | nil =>
    intro out h
    simp only [mapE, Except.ok.injEq] at h
    subst h
    rfl
  | cons a as ih =>
    intro out h
    rw [mapE] at h
    cases hfa : f a with
    | error e => rw [hfa] at h; cases h
    | ok b0 =>
      rw [hfa] at h
      cases hrest : mapE f as with
      | error e => rw [hrest] at h; cases h
      | ok bs =>
        rw [hrest] at h
        cases h
        simp only [List.map_cons]
        rw [hf a b0 hfa, ih hrest]

/-- On an empty catalog the bounds check always fires: any coerced index
gets the `(-1, None, None)` sentinel. -/
theorem layer_op_fetch_empty (r : ImageReader δ μ ρ) (hol : r.output_list = some [])
    (j : Int) (rs : Nat → ρ) :
    layer_op_fetch r j rs = (.ok (-1, none, none), r) := by
  unfold layer_op_fetch
  split
  · rename_i heq
    rw [hol] at heq
    cases heq
  · rename_i ol heq
    rw [hol] at heq
    injection heq with h
    subst h
    rw [if_pos (by simp; omega)]

/-- An out-of-bounds coerced index gets the `(-1, None, None)` sentinel
and leaves the state unchanged. -/
theorem layer_op_fetch_sentinel (r : ImageReader δ μ ρ) (ol : List (List (String × Image δ)))
    (hol : r.output_list = some ol) (j : Int) (h : j < 0 ∨ (ol.length : Int) ≤ j)
    (rs : Nat → ρ) :
    layer_op_fetch r j rs = (.ok (-1, none, none), r) := by
  unfold layer_op_fetch
  split
  · rename_i heq
    rw [hol] at heq
    cases heq
  · rename_i ol' heq
    rw [hol] at heq
    injection heq with h'
    subst h'
    rw [if_pos h]

/-- An in-bounds index is served: the record at that index is fetched,
the two dicts assembled, and the pipeline applied when non-empty. -/
theorem layer_op_fetch_valid (r : ImageReader δ μ ρ) (ol : List (List (String × Image δ)))
    (hol : r.output_list = some ol) (i : Nat) (rec : List (String × Image δ))
    (hrec : ol.get? i = some rec) (rs : Nat → ρ) :
    layer_op_fetch r (i : Int) rs =
      (.ok ((i : Int),
        some (if r.preprocessors.isEmpty then rec.map (fun p => (p.1, p.2.get_data))
              else (run_preprocessors r.preprocessors rs 0
                      (rec.map (fun p => (p.1, p.2.get_data)))
                      (rec.map (fun p => (p.1, p.2.interp_order))) none).1),
        some (rec.map (fun p => (p.1, p.2.interp_order)))), r) := by
  have hi : i < ol.length := by
    by_contra hc
    rw [List.get?_eq_none.mpr (by omega)] at hrec
    cases hrec
  unfold layer_op_fetch
  split
  · rename_i heq
    rw [hol] at heq
    cases heq
  · rename_i ol' heq
    rw [hol] at heq
    injection heq with h'
    subst h'
    rw [if_neg (by omega)]
    have ht : ((i : Int)).toNat = i := Int.toNat_natCast i
    rw [ht, hrec]

/-- Selecting the preprocessing pass when the pipeline is non-empty is
the same as always running the (identity-on-empty) pass. -/
theorem ite_isEmpty_run (ps : List (PLayer δ ι μ ρ)) (rs : Nat → ρ)
    (d : List (String × δ)) (itp : List (String × ι)) :
    (if ps.isEmpty then d else (run_preprocessors ps rs 0 d itp none).1) =
      (run_preprocessors ps rs 0 d itp none).1 := by
  cases ps <;> rfl

/-- Bind in the `Except` monad succeeds exactly through a successful
first component. -/
theorem except_bind_ok {α β : Type} {x : Except PyErr α} {f : α → Except PyErr β} {b : β} :
    (x >>= f) = .ok b ↔ ∃ a, x = .ok a ∧ f a = .ok b := by
  cases x with
  | error e =>
    constructor
    · intro h
      cases h
    · rintro ⟨a, ha, _⟩
      cases ha
  | ok a =>
    constructor
    · intro h
      exact ⟨a, rfl, h⟩
    · rintro ⟨a', ha, hf⟩
      injection ha with ha'
      rw [ha']
      exact hf

/-- A key absent from a table's key column matches no row. -/
theorem filter_key_nil {k : String} {l : List (String × List String)}
    (h : k ∉ l.map Prod.fst) :
    l.filter (fun r2 => decide (r2.1 = k)) = [] := by
  induction l with
  | nil => rfl
  | cons r rest ih =>
    simp only [List.map_cons, List.mem_cons, not_or] at h
    rw [List.filter_cons, if_neg (by simp only [decide_eq_true_eq]; exact fun hh => h.1 hh.symm)]
    exact ih h.2

/-- In a table with pairwise-distinct keys, at most one row matches a
given key. -/
theorem filter_key_len_le_one {k : String} {l : List (String × List String)}
    (h : (l.map Prod.fst).Nodup) :
    (l.filter (fun r2 => decide (r2.1 = k))).length ≤ 1 := by
  induction l with
  | nil => simp
  | cons r rest ih =>
    simp only [List.map_cons, List.nodup_cons] at h
    rw [List.filter_cons]
    by_cases hk : r.1 = k
    · rw [if_pos (by simp [hk])]
      subst hk
      rw [filter_key_nil h.1]
      simp
    · rw [if_neg (by simp [hk])]
      exact ih h.2

/-- An inner join yields at most one row per left row when the right
keys are pairwise distinct. -/
theorem mergeRows_length_le_left {rows1 rows2 : List (String × List String)}
    (h : (rows2.map Prod.fst).Nodup) :
    (mergeRows rows1 rows2).length ≤ rows1.length := by
  induction rows1 with
  | nil => simp [mergeRows]
  | cons r1 rest ih =>
    rw [mergeRows, List.length_append, List.length_map, List.length_cons]
    have h1 := filter_key_len_le_one (k := r1.1) h
    omega

/-- Filters by mutually exclusive predicates add up. -/
theorem length_filter_or_disjoint {α : Type} (l : List α) (p q : α → Bool)
    (h : ∀ x ∈ l, ¬(p x = true ∧ q x = true)) :
    (l.filter (fun x => p x || q x)).length = (l.filter p).length + (l.filter q).length := by
  induction l with
  | nil => rfl
  | cons a as ih =>
    have hrest := ih (fun x hx => h x (List.mem_cons_of_mem a hx))
    have ha := h a (List.mem_cons_self a as)
    rw [List.filter_cons, List.filter_cons, List.filter_cons]
    cases hp : p a <;> cases hq : q a
    · simpa [hp, hq] using hrest
    · simp [hp, hq]
      omega
    · simp [hp, hq]
      omega
    · exact absurd ⟨hp, hq⟩ ha

/-- With pairwise-distinct left keys, the joint rows inject into the
right rows whose key occurs on the left. -/
theorem mergeRows_length_le_filter {rows1 rows2 : List (String × List String)}
    (h : (rows1.map Prod.fst).Nodup) :
    (mergeRows rows1 rows2).length ≤
      (rows2.filter (fun r2 => decide (r2.1 ∈ rows1.map Prod.fst))).length := by
  induction rows1 with
  | nil => simp [mergeRows]
  | cons r1 rest ih =>
    simp only [List.map_cons, List.nodup_cons] at h
    rw [mergeRows, List.length_append, List.length_map]
    have hdisj : ∀ x ∈ rows2,
        ¬((fun r2 : String × List String => decide (r2.1 = r1.1)) x = true ∧
          (fun r2 : String × List String => decide (r2.1 ∈ rest.map Prod.fst)) x = true) := by
      intro x _ hc
      simp only [decide_eq_true_eq] at hc
      exact h.1 (hc.1 ▸ hc.2)
    have hsum := length_filter_or_disjoint rows2 _ _ hdisj
    have hcong :
        rows2.filter (fun r2 => (decide (r2.1 = r1.1) || decide (r2.1 ∈ rest.map Prod.fst))) =
          rows2.filter (fun r2 => decide (r2.1 ∈ (r1 :: rest).map Prod.fst)) := by
      apply List.filter_congr
      intro x _
      by_cases hx : x.1 = r1.1
      · simp [hx, List.mem_cons]
      · by_cases hx2 : x.1 ∈ rest.map Prod.fst
        · simp [hx, hx2, List.mem_cons]
        · simp [hx, hx2, List.mem_cons]
    have hrest := ih h.2
    rw [← hcong, hsum]
    omega

/-- An inner join yields at most `|rows2|` rows when the left keys are
pairwise distinct. -/
theorem mergeRows_length_le_right {rows1 rows2 : List (String × List String)}
    (h : (rows1.map Prod.fst).Nodup) :
    (mergeRows rows1 rows2).length ≤ rows2.length :=
  (mergeRows_length_le_filter h).trans (List.length_filter_le _ _)

/-- With distinct right keys, the joint key column is a sublist of the
left key column. -/
theorem mergeRows_keys_sublist {rows1 rows2 : List (String × List String)}
    (h2 : (rows2.map Prod.fst).Nodup) :
    ((mergeRows rows1 rows2).map Prod.fst).Sublist (rows1.map Prod.fst) := by
  induction rows1 with
  | nil => simp [mergeRows]
  | cons r1 rest ih =>
    rw [mergeRows, List.map_append, List.map_map, List.map_cons]
    cases hf : rows2.filter (fun r2 => decide (r2.1 = r1.1)) with
    | nil =>
      simpa using ih.cons r1.1
    | cons x xs =>
      have hone : (x :: xs).length ≤ 1 := hf ▸ filter_key_len_le_one (k := r1.1) h2
      have hxs : xs = [] := by
        rw [List.length_cons] at hone
        exact List.eq_nil_of_length_eq_zero (by omega)
      subst hxs
      simpa [Function.comp] using ih.cons₂ r1.1

/-- Inner joins preserve key distinctness. -/
theorem mergeRows_keys_nodup {rows1 rows2 : List (String × List String)}
    (h1 : (rows1.map Prod.fst).Nodup) (h2 : (rows2.map Prod.fst).Nodup) :
    ((mergeRows rows1 rows2).map Prod.fst).Nodup :=
  (mergeRows_keys_sublist h2).nodup h1

/-- `read_csv` preserves the subject-id column. -/
theorem read_csv_keys (m : String) (raw : List (String × String)) :
    (read_csv m raw).rows.map Prod.fst = raw.map Prod.fst := by
  simp [read_csv, List.map_map, Function.comp]

/-- `read_csv` has one row per raw csv line. -/
theorem read_csv_rows_length (m : String) (raw : List (String × String)) :
    (read_csv m raw).rows.length = raw.length := by
  simp [read_csv]

/-- The merge-loop step on a non-`None` accumulator, in the shape the
inversion proofs use. -/
theorem loadLoop_cons_some (modality_name : String) (spec : DataSpec)
    (rest : List (String × DataSpec)) (files : String → Option (List (String × String)))
    (acc : DataFrame) (warns : List String) :
    loadLoop ((modality_name, spec) :: rest) files (some acc) warns =
      match files spec.csv_file with
      | none => .error .ioError
      | some raw =>
        loadLoop rest files (some (innerMerge acc (read_csv modality_name raw)))
          (if (innerMerge acc (read_csv modality_name raw)).rows.length ≠ acc.rows.length
           then warns ++ [spec.csv_file] else warns) := by
  cases hfile : files spec.csv_file with
  | none =>
    unfold loadLoop
    rw [hfile]
  | some raw =>
    conv_lhs => unfold loadLoop
    rw [hfile]

/-- The merge-loop step on the initial `None` accumulator. -/
theorem loadLoop_cons_none (modality_name : String) (spec : DataSpec)
    (rest : List (String × DataSpec)) (files : String → Option (List (String × String)))
    (warns : List String) :
    loadLoop ((modality_name, spec) :: rest) files none warns =
      match files spec.csv_file with
      | none => .error .ioError
      | some raw => loadLoop rest files (some (read_csv modality_name raw)) warns := by
  cases hfile : files spec.csv_file with
  | none =>
    unfold loadLoop
    rw [hfile]
  | some raw =>
    conv_lhs => unfold loadLoop
    rw [hfile]

/-- Invariant of the merge loop: when every manifest has pairwise
distinct subject ids and the accumulator does too, the final row count
is bounded by the accumulator's and by every remaining manifest's. -/
theorem loadLoop_bound :
    ∀ (data : List (String × DataSpec)) (files : String → Option (List (String × String)))
      (acc : DataFrame) (warns : List String) (final : DataFrame) (wfin : List String),
      (∀ p ∈ data, ∀ raw, files p.2.csv_file = some raw → (raw.map Prod.fst).Nodup) →
      (acc.rows.map Prod.fst).Nodup →
      loadLoop data files (some acc) warns = .ok (some final, wfin) →
      final.rows.length ≤ acc.rows.length ∧
        (∀ p ∈ data, ∀ raw, files p.2.csv_file = some raw → final.rows.length ≤ raw.length) := by
  intro data
  induction data with
  | nil =>
    intro files acc warns final wfin _ _ h
    have h' : (Except.ok (some acc, warns) :
        Except PyErr (Option DataFrame × List String)) = .ok (some final, wfin) := h
    simp only [Except.ok.injEq, Prod.mk.injEq, Option.some.injEq] at h'
    refine ⟨le_of_eq (by rw [h'.1]), ?_⟩
    intro p hp
    cases hp
  | cons hd rest ih =>
    intro files acc warns final wfin hnd hacc h
    obtain ⟨modality_name, spec⟩ := hd
    rw [loadLoop_cons_some] at h
    cases hfile : files spec.csv_file with
    | none =>
      rw [hfile] at h
      cases h
    | some raw =>
      rw [hfile] at h
      have hcsvnd : ((read_csv modality_name raw).rows.map Prod.fst).Nodup := by
        rw [read_csv_keys]
        exact hnd (modality_name, spec) (List.mem_cons_self _ _) raw hfile
      have hmnd : ((innerMerge acc (read_csv modality_name raw)).rows.map Prod.fst).Nodup :=
        mergeRows_keys_nodup hacc hcsvnd
      have hrest := ih files (innerMerge acc (read_csv modality_name raw)) _ final wfin
        (fun p hp => hnd p (List.mem_cons_of_mem _ hp)) hmnd h
      constructor
      · exact hrest.1.trans (mergeRows_length_le_left hcsvnd)
      · intro p hp raw' hraw'
        obtain ⟨pn, ps⟩ := p
        rcases List.mem_cons.mp hp with heq | hm
        · cases heq
          rw [hfile] at hraw'
          injection hraw' with hr
          subst hr
          calc final.rows.length ≤ (innerMerge acc (read_csv modality_name raw)).rows.length :=
                hrest.1
            _ ≤ (read_csv modality_name raw).rows.length := mergeRows_length_le_right hacc
            _ = raw.length := read_csv_rows_length _ _
        · exact hrest.2 (pn, ps) hm raw' hraw'

/-- A missing manifest file anywhere in the remaining sections makes the
merge loop raise `IOError`. -/
theorem loadLoop_missing :
    ∀ (data : List (String × DataSpec)) (files : String → Option (List (String × String)))
      (acc : Option DataFrame) (warns : List String),
      (∃ p ∈ data, files p.2.csv_file = none) →
      loadLoop data files acc warns = .error .ioError := by
  intro data
  induction data with
  | nil =>
    rintro files acc warns ⟨p, hp, _⟩
    cases hp
  | cons hd rest ih =>
    rintro files acc warns ⟨p, hp, hnone⟩
    obtain ⟨modality_name, spec⟩ := hd
    cases hfile : files spec.csv_file with
    | none =>
      cases acc with
      | none => rw [loadLoop_cons_none, hfile]
      | some fl => rw [loadLoop_cons_some, hfile]
    | some raw =>
      have hmem : ∃ q ∈ rest, files q.2.csv_file = none := by
        obtain ⟨pn, ps⟩ := p
        rcases List.mem_cons.mp hp with heq | hm
        · cases heq
          rw [hfile] at hnone
          cases hnone
        · exact ⟨(pn, ps), hm, hnone⟩
      cases acc with
      | none =>
        rw [loadLoop_cons_none, hfile]
        exact ih files _ _ hmem
      | some fl =>
        rw [loadLoop_cons_some, hfile]
        exact ih files _ _ hmem

/-- With every remaining file present, the merge loop computes exactly
the fold of inner joins (with some warning log). -/
theorem loadLoop_allPresent :
    ∀ (data : List (String × DataSpec)) (files : String → Option (List (String × String)))
      (acc : DataFrame) (warns : List String),
      (∀ p ∈ data, files p.2.csv_file ≠ none) →
      ∃ w, loadLoop data files (some acc) warns = .ok (some (foldMergeAcc data files acc), w) := by
  intro data
  induction data with
  | nil =>
    intro files acc warns _
    exact ⟨warns, rfl⟩
  | cons hd rest ih =>
    intro files acc warns hall
    obtain ⟨modality_name, spec⟩ := hd
    cases hfile : files spec.csv_file with
    | none => exact absurd hfile (hall (modality_name, spec) (List.mem_cons_self _ _))
    | some raw =>
      obtain ⟨w, hw⟩ := ih files (innerMerge acc (read_csv modality_name raw))
        (if (innerMerge acc (read_csv modality_name raw)).rows.length ≠ acc.rows.length
         then warns ++ [spec.csv_file] else warns)
        (fun p hp => hall p (List.mem_cons_of_mem _ hp))
      refine ⟨w, ?_⟩
      rw [loadLoop_cons_some, hfile]
      rw [show foldMergeAcc ((modality_name, spec) :: rest) files acc =
        foldMergeAcc rest files
          (innerMerge acc (read_csv modality_name ((files spec.csv_file).getD []))) from rfl]
      rw [hfile]
      exact hw

/-- Top-level form of the previous lemma, starting from the `None`
accumulator. -/
theorem load_allPresent (data : List (String × DataSpec))
    (files : String → Option (List (String × String)))
    (hne : data ≠ []) (hall : ∀ p ∈ data, files p.2.csv_file ≠ none) :
    ∃ t w, loadLoop data files none [] = .ok (some t, w) ∧ mergedTable data files = some t := by
  cases data with
  | nil => exact absurd rfl hne
  | cons hd rest =>
    obtain ⟨modality_name, spec⟩ := hd
    obtain ⟨raw, hfile⟩ :=
      Option.ne_none_iff_exists'.mp (hall (modality_name, spec) (List.mem_cons_self _ _))
    obtain ⟨w, hw⟩ := loadLoop_allPresent rest files (read_csv modality_name raw) []
      (fun p hp => hall p (List.mem_cons_of_mem _ hp))
    refine ⟨foldMergeAcc rest files (read_csv modality_name raw), w, ?_, ?_⟩
    · rw [loadLoop_cons_none, hfile]
      exact hw
    · rw [show mergedTable ((modality_name, spec) :: rest) files =
        some (foldMergeAcc rest files
          (read_csv modality_name ((files spec.csv_file).getD []))) from rfl]
      rw [hfile]
      rfl

/-- A data frame has zero size exactly when it has zero rows (it always
has the subject-id column). -/
theorem size_eq_zero_iff (df : DataFrame) : df.size = 0 ↔ df.rows = [] := by
  unfold DataFrame.size
  constructor
  · intro h
    rcases Nat.mul_eq_zero.mp h with h | h
    · exact List.length_eq_zero.mp h
    · omega
  · intro h
    rw [h]
    simp

/-- Processing a concatenation of stages processes the prefix first and
feeds its outputs (data, mask, randomness index) to the suffix. -/
theorem run_preprocessors_append (xs ys : List (PLayer δ ι μ ρ)) (rs : Nat → ρ) (k : Nat)
    (d : List (String × δ)) (itp : List (String × ι)) (m : Option μ) :
    run_preprocessors (xs ++ ys) rs k d itp m =
      run_preprocessors ys rs
        (run_preprocessors xs rs k d itp m).2.2
        (run_preprocessors xs rs k d itp m).1
        itp
        (run_preprocessors xs rs k d itp m).2.1 := by
  induction xs generalizing k d m with
  | nil => rfl
  | cons l xs ih =>
    cases l with
    | pyNone => exact ih k d m
    | randomised f => exact ih (k + 1) (f (rs k) d itp) m
    | plain f => exact ih k (f d m).1 (f d m).2

/-- Successful initialisation decomposes into its phases: non-empty
name set, `data_to_load` assembly, csv merge and record-list build, the
final state collecting their results. -/
theorem initialise_ok (r0 : ImageReader δ μ ρ) (dp : List (String × DataSpec))
    (tp : List (String × List String)) (files : String → Option (List (String × String)))
    (factory : ImageProps → Image δ) (r : ImageReader δ μ ρ)
    (h : initialise_reader r0 dp tp files factory = .ok r) :
    ∃ dtl flw ol,
      buildDataToLoad (input_sources_of r0._names tp) dp [] = .ok dtl ∧
      load_and_merge_csv_files dtl files = .ok flw ∧
      filename_to_image_list flw.1 (input_sources_of r0._names tp) dp factory = .ok ol ∧
      r = { r0 with
            _names := active_names r0._names tp
            _input_sources := some (input_sources_of r0._names tp)
            _file_list := some flw.1
            output_list := some ol } := by
  unfold initialise_reader at h
  by_cases hne : r0._names.isEmpty
  · rw [if_pos hne] at h
    cases h
  · rw [if_neg hne] at h
    simp only [except_bind_ok, Except.ok.injEq] at h
    obtain ⟨dtl, hdtl, flw, hload, ol, hol, h⟩ := h
    exact ⟨dtl, flw, ol, hdtl, hload, hol, h.symm⟩

/-- The keys of `input_sources` are exactly the active field names. -/
theorem input_sources_keys (names : List String) (tp : List (String × List String)) :
    (input_sources_of names tp).map Prod.fst = active_names names tp := by
  unfold input_sources_of
  rw [List.map_map]
  have h : (Prod.fst ∘ fun n : String => (n, taskGet tp n)) = id := by
    funext n
    rfl
  rw [h, List.map_id]

/-- Rewriting a field of a structure to its current value is the
identity. -/
theorem update_shapes_self (r : ImageReader δ μ ρ) (s : Option (List (String × List Nat)))
    (h : r._shapes = s) : ({ r with _shapes := s } : ImageReader δ μ ρ) = r := by
  subst h
  rfl

/-- Rewriting a field of a structure to its current value is the
identity. -/
theorem update_dtypes_self (r : ImageReader δ μ ρ) (s : Option (List (String × TfDtype)))
    (h : r._dtypes = s) : ({ r with _dtypes := s } : ImageReader δ μ ρ) = r := by
  subst h
  rfl

/-- `shapes` on a truthy cache returns it and leaves the state alone. -/
theorem shapes_cached (r : ImageReader δ μ ρ) (first : List (String × Image δ))
    (rest : List (List (String × Image δ))) (x : String × List Nat)
    (xs : List (String × List Nat)) (hol : r.output_list = some (first :: rest))
    (hsh : r._shapes = some (x :: xs)) :
    ImageReader.shapes r = (.ok (x :: xs), r) := by
  unfold ImageReader.shapes
  split
  · rename_i heq
    rw [hol] at heq
    cases heq
  · rename_i heq
    rw [hol] at heq
    injection heq with h'
    cases h'
  · rename_i first' rest' heq
    rw [if_pos (show truthyCache r._shapes = true by rw [hsh]; rfl)]
    rw [hsh]
    rfl

/-- `shapes` on a falsy cache computes from record 0 and memoizes. -/
theorem shapes_computed (r : ImageReader δ μ ρ) (first : List (String × Image δ))
    (rest : List (List (String × Image δ))) (hol : r.output_list = some (first :: rest))
    (hsh : r._shapes = none ∨ r._shapes = some []) (d : List (String × List Nat))
    (hcomp : computeFieldMap first r._names Image.shape = .ok d) :
    ImageReader.shapes r = (.ok d, { r with _shapes := some d }) := by
  unfold ImageReader.shapes
  split
  · rename_i heq
    rw [hol] at heq
    cases heq
  · rename_i heq
    rw [hol] at heq
    injection heq with h'
    cases h'
  · rename_i first' rest' heq
    rw [hol] at heq
    injection heq with h'
    injection h' with h1 h2
    subst h1
    rw [if_neg (by rcases hsh with h | h <;> simp [h, truthyCache])]
    rw [hcomp]

/-- `shapes` on a falsy cache propagates a `KeyError` from the
computation without touching the state. -/
theorem shapes_computed_error (r : ImageReader δ μ ρ) (first : List (String × Image δ))
    (rest : List (List (String × Image δ))) (hol : r.output_list = some (first :: rest))
    (hsh : r._shapes = none ∨ r._shapes = some []) (e : PyErr)
    (hcomp : computeFieldMap first r._names Image.shape = .error e) :
    ImageReader.shapes r = (.error e, r) := by
  unfold ImageReader.shapes
  split
  · rename_i heq
    rw [hol] at heq
    cases heq
  · rename_i heq
    rw [hol] at heq
    injection heq with h'
    cases h'
  · rename_i first' rest' heq
    rw [hol] at heq
    injection heq with h'
    injection h' with h1 h2
    subst h1
    rw [if_neg (by rcases hsh with h | h <;> simp [h, truthyCache])]
    rw [hcomp]

/-- `tf_dtypes` on a truthy cache returns it and leaves the state
alone. -/
theorem dtypes_cached (r : ImageReader δ μ ρ) (first : List (String × Image δ))
    (rest : List (List (String × Image δ))) (x : String × TfDtype)
    (xs : List (String × TfDtype)) (hol : r.output_list = some (first :: rest))
    (hsh : r._dtypes = some (x :: xs)) :
    ImageReader.tf_dtypes r = (.ok (x :: xs), r) := by
  unfold ImageReader.tf_dtypes
  split
  · rename_i heq
    rw [hol] at heq
    cases heq
  · rename_i heq
    rw [hol] at heq
    injection heq with h'
    cases h'
  · rename_i first' rest' heq
    rw [if_pos (show truthyCache r._dtypes = true by rw [hsh]; rfl)]
    rw [hsh]
    rfl

/-- `tf_dtypes` on a falsy cache computes from record 0 and memoizes. -/
theorem dtypes_computed (r : ImageReader δ μ ρ) (first : List (String × Image δ))
    (rest : List (List (String × Image δ))) (hol : r.output_list = some (first :: rest))
    (hsh : r._dtypes = none ∨ r._dtypes = some []) (d : List (String × TfDtype))
    (hcomp : computeFieldMap first r._names infer_tf_dtypes = .ok d) :
    ImageReader.tf_dtypes r = (.ok d, { r with _dtypes := some d }) := by
  unfold ImageReader.tf_dtypes
  split
  · rename_i heq
    rw [hol] at heq
    cases heq
  · rename_i heq
    rw [hol] at heq
    injection heq with h'
    cases h'
  · rename_i first' rest' heq
    rw [hol] at heq
    injection heq with h'
    injection h' with h1 h2
    subst h1
    rw [if_neg (by rcases hsh with h | h <;> simp [h, truthyCache])]
    rw [hcomp]

/-- `tf_dtypes` on a falsy cache propagates a `KeyError` from the
computation without touching the state. -/
theorem dtypes_computed_error (r : ImageReader δ μ ρ) (first : List (String × Image δ))
    (rest : List (List (String × Image δ))) (hol : r.output_list = some (first :: rest))
    (hsh : r._dtypes = none ∨ r._dtypes = some []) (e : PyErr)
    (hcomp : computeFieldMap first r._names infer_tf_dtypes = .error e) :
    ImageReader.tf_dtypes r = (.error e, r) := by
  unfold ImageReader.tf_dtypes
  split
  · rename_i heq
    rw [hol] at heq
    cases heq
  · rename_i heq
    rw [hol] at heq
    injection heq with h'
    cases h'
  · rename_i first' rest' heq
    rw [hol] at heq
    injection heq with h'
    injection h' with h1 h2
    subst h1
    rw [if_neg (by rcases hsh with h | h <;> simp [h, truthyCache])]
    rw [hcomp]

/-- `shapes` on a falsy `output_list` raises the not-initialised
error. -/
theorem shapes_uninitialised (r : ImageReader δ μ ρ)
    (h : r.output_list = none ∨ r.output_list = some []) :
    ImageReader.shapes r = (.error .runtimeError, r) := by
  unfold ImageReader.shapes
  rcases h with h | h <;> rw [h]

/-- `tf_dtypes` on a falsy `output_list` raises the not-initialised
error. -/
theorem dtypes_uninitialised (r : ImageReader δ μ ρ)
    (h : r.output_list = none ∨ r.output_list = some []) :
    ImageReader.tf_dtypes r = (.error .runtimeError, r) := by
  unfold ImageReader.tf_dtypes
  rcases h with h | h <;> rw [h]

end Lemmas

/-! ## The claims -/

section Claims

variable {δ ι μ ρ : Type}

/-- C9: explicit-mode access (index given) and random-mode access (index
absent, shuffle true) never modify the reader state — in particular the
sequential cursor `current_id` is written only on the sequential-mode
branch — so interleaving explicit or random accesses between sequential
accesses does not change the sequence of results served to the
sequential requests of a trace. -/
theorem c9_cursor_frame :
    (∀ (r : ImageReader δ μ ρ) (v : PyVal) (shuffle : Bool) (rng : Nat) (rs : Nat → ρ),
      (layer_op r (some v) shuffle rng rs).2 = r)
    ∧ (∀ (r : ImageReader δ μ ρ) (rng : Nat) (rs : Nat → ρ),
      (layer_op r none true rng rs).2 = r)
    ∧ (∀ (r : ImageReader δ μ ρ) (rs : Nat → ρ) (qs : List AccessReq),
      seqServed r rs qs = seqServed r rs (qs.filter isSequential)) := by
  refine ⟨layer_op_explicit_snd, layer_op_random_snd, ?_⟩
  intro r rs qs
  induction qs generalizing r with
  | nil => rfl
  | cons q qs ih =>
    cases q with
    | explicitIdx v =>
      simp only [seqServed, doReq, isSequential, List.filter_cons, Bool.false_eq_true,
        if_false, layer_op_explicit_snd]
      exact ih r
    | randomDraw g =>
      simp only [seqServed, doReq, isSequential, List.filter_cons, Bool.false_eq_true,
        if_false, layer_op_random_snd]
      exact ih r
    | sequential =>
      simp only [seqServed, doReq, isSequential, List.filter_cons, if_true]
      rw [ih]

/-- C10: on a reader whose catalog is the empty list, random-mode access
raises `ValueError` (numpy `randint` over an empty range) instead of
returning the sentinel, while explicit-mode access (any index value) and
sequential-mode access return the `(-1, None, None)` sentinel. -/
theorem c10_empty_catalog_random (r : ImageReader δ μ ρ) (hol : r.output_list = some [])
    (v : PyVal) (shuffle : Bool) (rng : Nat) (rs : Nat → ρ) :
    layer_op r none true rng rs = (.error .valueError, r)
    ∧ layer_op r (some v) shuffle rng rs = (.ok (-1, none, none), r)
    ∧ (layer_op r none false rng rs).1 = .ok (-1, none, none) := by
  refine ⟨?_, ?_, ?_⟩
  · show layer_op_random r rng rs = _
    unfold layer_op_random
    split
    · rename_i heq
      rw [hol] at heq
      cases heq
    · rename_i ol heq
      rw [hol] at heq
      injection heq with h
      subst h
      rfl
  · rw [layer_op_some]
    exact layer_op_fetch_empty r hol _ rs
  · show (layer_op_fetch { r with current_id := r.current_id + 1 } (r.current_id + 1) rs).1 = _
    rw [layer_op_fetch_empty { r with current_id := r.current_id + 1 } hol
      (r.current_id + 1) rs]

/-- C3: an explicit access whose index is out of `[0, N)` after `int(·)`
coercion, or whose coercion raises `ValueError`, returns the sentinel
`(-1, None, None)` without raising and without touching the state. -/
theorem c3_invalid_index_sentinel (r : ImageReader δ μ ρ)
    (ol : List (List (String × Image δ))) (hol : r.output_list = some ol)
    (v : PyVal) (shuffle : Bool) (rng : Nat) (rs : Nat → ρ)
    (hbad : py_int v = .error .valueError ∨
      ∃ j : Int, py_int v = .ok j ∧ (j < 0 ∨ (ol.length : Int) ≤ j)) :
    layer_op r (some v) shuffle rng rs = (.ok (-1, none, none), r) := by
  rw [layer_op_some]
  unfold layer_op_explicit
  rcases hbad with hb | ⟨j, hj, hbound⟩
  · rw [hb]
    exact layer_op_fetch_sentinel r ol hol _ (Or.inl (by norm_num)) rs
  · rw [hj]
    exact layer_op_fetch_sentinel r ol hol _ hbound rs

/-- C2: from a freshly constructed reader (cursor at `-1`) over a
catalog of `N` records, the first `N` sequential-mode calls return
resolved indices `0, 1, …, N-1` in order, and the `(N+1)`-th call
returns the `(-1, None, None)` sentinel. -/
theorem c2_sequential_scan (r : ImageReader δ μ ρ)
    (ol : List (List (String × Image δ))) (rs : Nat → ρ)
    (hol : r.output_list = some ol) (hfresh : r.current_id = -1) :
    (∀ i : Nat, i < ol.length → ∃ d o,
      (layer_op (seqIter r rs i) none false 0 rs).1 = .ok ((i : Int), some d, some o))
    ∧ (layer_op (seqIter r rs ol.length) none false 0 rs).1 = .ok (-1, none, none) := by
  constructor
  · intro i hi
    obtain ⟨rec, hrec⟩ : ∃ rec, ol.get? i = some rec :=
      ⟨ol.get ⟨i, hi⟩, List.get?_eq_get hi⟩
    have hcall :
        (layer_op (seqIter r rs i) none false 0 rs).1 =
          .ok ((i : Int),
            some (if r.preprocessors.isEmpty then rec.map (fun p => (p.1, p.2.get_data))
                  else (run_preprocessors r.preprocessors rs 0
                          (rec.map (fun p => (p.1, p.2.get_data)))
                          (rec.map (fun p => (p.1, p.2.interp_order))) none).1),
            some (rec.map (fun p => (p.1, p.2.interp_order)))) := by
      rw [seqIter_eq]
      show (layer_op_fetch { r with current_id := r.current_id + (i : Int) + 1 }
        (r.current_id + (i : Int) + 1) rs).1 = _
      rw [show r.current_id + (i : Int) + 1 = (i : Int) by rw [hfresh]; ring]
      rw [layer_op_fetch_valid { r with current_id := (i : Int) } ol hol i rec hrec rs]
    exact ⟨_, _, hcall⟩
  · rw [seqIter_eq]
    show (layer_op_fetch { r with current_id := r.current_id + (ol.length : Int) + 1 }
      (r.current_id + (ol.length : Int) + 1) rs).1 = _
    rw [layer_op_fetch_sentinel { r with current_id := r.current_id + (ol.length : Int) + 1 }
      ol hol _ (Or.inr (by rw [hfresh]; omega)) rs]

/-- C4: on a valid access the per-access pipeline pass receives the
field→array dict and the field→interp-order dict with the mask cache
starting at `None`; the stages apply in list order (a concatenation
processes its prefix first, threading data, mask and randomness index);
a `None` placeholder stage is skipped; a `Randomised` stage consumes the
next fresh randomness draw, is given the interp-order dict and leaves
the threaded mask untouched; every other stage receives and returns the
threaded mask. -/
theorem c4_pipeline_semantics (r : ImageReader δ μ ρ)
    (ol : List (List (String × Image δ))) (hol : r.output_list = some ol)
    (i : Nat) (rec : List (String × Image δ)) (hrec : ol.get? i = some rec)
    (shuffle : Bool) (rng : Nat) (rs : Nat → ρ) :
    ((layer_op r (some (.pyInt i)) shuffle rng rs).1 =
      .ok ((i : Int),
        some (run_preprocessors r.preprocessors rs 0
                (rec.map (fun p => (p.1, p.2.get_data)))
                (rec.map (fun p => (p.1, p.2.interp_order))) none).1,
        some (rec.map (fun p => (p.1, p.2.interp_order)))))
    ∧ (∀ (xs ys : List (PLayer δ ι μ ρ)) (rs' : Nat → ρ) (k : Nat)
        (d : List (String × δ)) (itp : List (String × ι)) (m : Option μ),
      run_preprocessors (xs ++ ys) rs' k d itp m =
        run_preprocessors ys rs'
          (run_preprocessors xs rs' k d itp m).2.2
          (run_preprocessors xs rs' k d itp m).1
          itp
          (run_preprocessors xs rs' k d itp m).2.1)
    ∧ (∀ (ls : List (PLayer δ ι μ ρ)) (rs' : Nat → ρ) (k : Nat)
        (d : List (String × δ)) (itp : List (String × ι)) (m : Option μ),
      run_preprocessors (.pyNone :: ls) rs' k d itp m =
        run_preprocessors ls rs' k d itp m)
    ∧ (∀ (f : ρ → List (String × δ) → List (String × ι) → List (String × δ))
        (ls : List (PLayer δ ι μ ρ)) (rs' : Nat → ρ) (k : Nat)
        (d : List (String × δ)) (itp : List (String × ι)) (m : Option μ),
      run_preprocessors (.randomised f :: ls) rs' k d itp m =
        run_preprocessors ls rs' (k + 1) (f (rs' k) d itp) itp m)
    ∧ (∀ (g : List (String × δ) → Option μ → List (String × δ) × Option μ)
        (ls : List (PLayer δ ι μ ρ)) (rs' : Nat → ρ) (k : Nat)
        (d : List (String × δ)) (itp : List (String × ι)) (m : Option μ),
      run_preprocessors (.plain g :: ls) rs' k d itp m =
        run_preprocessors ls rs' k (g d m).1 itp (g d m).2) := by
  refine ⟨?_, run_preprocessors_append, fun _ _ _ _ _ _ => rfl,
    fun _ _ _ _ _ _ _ => rfl, fun _ _ _ _ _ _ _ => rfl⟩
  rw [layer_op_some]
  show (layer_op_fetch r (i : Int) rs).1 = _
  rw [layer_op_fetch_valid r ol hol i rec hrec rs]
  rw [ite_isEmpty_run]

/-- C5 counterexample: two manifests of two rows each, both repeating
subject id `s`; the inner join yields `2 × 2 = 4` rows, strictly more
than the minimum manifest row count `2` (and the merge still succeeds,
logging a row-count-change warning). -/
theorem c5_counterexample :
    (load_and_merge_csv_files dpC5 filesC5).map (fun p => p.1.rows.length) = .ok 4
    ∧ filesC5 "a.csv" = some [("s", "x"), ("s", "y")]
    ∧ filesC5 "b.csv" = some [("s", "u"), ("s", "v")]
    ∧ dpC5.map (fun p => p.2.csv_file) = ["a.csv", "b.csv"]
    ∧ ¬(4 ≤ 2) := by
  refine ⟨by rfl, by decide, by decide, by decide, by decide⟩

/-- C5 (amended): when every manifest has pairwise-distinct subject ids,
the joint table produced by a successful merge has at most as many rows
as each manifest (hence at most the minimum); and a join step that
changes the accumulated row count appends a warning naming the csv file
and continues the loop (row drops are non-fatal). -/
theorem c5_merge_row_bound (data : List (String × DataSpec))
    (files : String → Option (List (String × String)))
    (hnd : ∀ p ∈ data, ∀ raw, files p.2.csv_file = some raw → (raw.map Prod.fst).Nodup)
    (final : DataFrame) (w : List String)
    (hok : load_and_merge_csv_files data files = .ok (final, w)) :
    (∀ p ∈ data, ∀ raw, files p.2.csv_file = some raw → final.rows.length ≤ raw.length)
    ∧ (∀ (modality_name : String) (spec : DataSpec) (rest : List (String × DataSpec))
        (fl : DataFrame) (raw : List (String × String)) (warns : List String),
        files spec.csv_file = some raw →
        loadLoop ((modality_name, spec) :: rest) files (some fl) warns =
          loadLoop rest files (some (innerMerge fl (read_csv modality_name raw)))
            (if (innerMerge fl (read_csv modality_name raw)).rows.length ≠ fl.rows.length
             then warns ++ [spec.csv_file] else warns)) := by
  constructor
  · have hinv : ∃ warns, loadLoop data files none [] = .ok (some final, warns) := by
      unfold load_and_merge_csv_files at hok
      cases hloop : loadLoop data files none [] with
      | error e =>
        rw [hloop] at hok
        cases hok
      | ok pr =>
        obtain ⟨oacc, warns⟩ := pr
        rw [hloop] at hok
        cases oacc with
        | none =>
          have hok' : (Except.error PyErr.attributeError :
              Except PyErr (DataFrame × List String)) = .ok (final, w) := hok
          cases hok'
        | some fl =>
          have hok' : (if fl.size = 0 then (Except.error PyErr.ioError :
              Except PyErr (DataFrame × List String)) else .ok (fl, warns)) =
              .ok (final, w) := hok
          by_cases hsz : fl.size = 0
          · rw [if_pos hsz] at hok'
            cases hok'
          · rw [if_neg hsz] at hok'
            injection hok' with h'
            injection h' with h1 h2
            exact ⟨warns, by rw [h1]⟩
    obtain ⟨warns, hloop⟩ := hinv
    cases data with
    | nil =>
      have h' : (Except.ok ((none : Option DataFrame), ([] : List String)) :
          Except PyErr (Option DataFrame × List String)) = .ok (some final, warns) := hloop
      simp at h'
    | cons hd rest =>
      obtain ⟨modality_name, spec⟩ := hd
      cases hfile : files spec.csv_file with
      | none =>
        rw [loadLoop_missing _ files none []
          ⟨(modality_name, spec), List.mem_cons_self _ _, hfile⟩] at hloop
        cases hloop
      | some raw =>
        rw [loadLoop_cons_none, hfile] at hloop
        have hcsvnd : ((read_csv modality_name raw).rows.map Prod.fst).Nodup := by
          rw [read_csv_keys]
          exact hnd (modality_name, spec) (List.mem_cons_self _ _) raw hfile
        have hb := loadLoop_bound rest files (read_csv modality_name raw) [] final warns
          (fun p hp => hnd p (List.mem_cons_of_mem _ hp)) hcsvnd hloop
        intro p hp raw' hraw'
        obtain ⟨pn, ps⟩ := p
        rcases List.mem_cons.mp hp with heq | hm
        · cases heq
          rw [hfile] at hraw'
          injection hraw' with hr
          subst hr
          calc final.rows.length ≤ (read_csv modality_name raw).rows.length := hb.1
            _ = raw.length := read_csv_rows_length _ _
        · exact hb.2 (pn, ps) hm raw' hraw'
  · intro modality_name spec rest fl raw warns hraw
    rw [loadLoop_cons_some, hraw]

/-- C5 witness: two distinct-keyed two-row manifests sharing exactly
subject `s2`; the joint table has one row, within both manifest bounds. -/
theorem c5_witness :
    (⟨["m1", "m2"], [("s2", ["y", "u"])]⟩ : DataFrame).rows.length ≤
      [("s1", "x"), ("s2", "y")].length := by
  have h := c5_merge_row_bound dpC5 filesC5W
    (by
      intro p hp raw hraw
      fin_cases hp <;> simp only [filesC5W] at hraw <;> simp at hraw <;>
        (rw [← hraw]; decide))
    ⟨["m1", "m2"], [("s2", ["y", "u"])]⟩ ["b.csv"] (by rfl)
  exact h.1 ("m1", ⟨"a.csv", 0, [], ""⟩) (by decide) [("s1", "x"), ("s2", "y")] (by decide)

/-- C6 counterexample: on the empty collection of manifests the Python
accumulator is still `None` and `None.size` raises `AttributeError`, so
the merge neither raises `IOError` nor returns a joined table. -/
theorem c6_counterexample :
    load_and_merge_csv_files [] (fun _ => none) = .error .attributeError
    ∧ PyErr.attributeError ≠ PyErr.ioError := by
  exact ⟨rfl, by decide⟩

/-- C6 (amended): for every non-empty collection of manifests, the merge
fails with `IOError` exactly when some manifest's backing csv is missing
or the joint table is empty, and otherwise returns the joined table (for
the empty collection it raises `AttributeError` instead, see the
counterexample). -/
theorem c6_failure_characterisation (data : List (String × DataSpec))
    (files : String → Option (List (String × String))) (hne : data ≠ []) :
    (load_and_merge_csv_files data files = .error .ioError ↔
      ((∃ p ∈ data, files p.2.csv_file = none) ∨
        (∃ t, mergedTable data files = some t ∧ t.rows = [])))
    ∧ (∀ t, mergedTable data files = some t → t.rows ≠ [] →
        (∀ p ∈ data, files p.2.csv_file ≠ none) →
        ∃ w, load_and_merge_csv_files data files = .ok (t, w)) := by
  constructor
  · constructor
    · intro herr
      by_cases hmiss : ∃ p ∈ data, files p.2.csv_file = none
      · exact Or.inl hmiss
      · push_neg at hmiss
        obtain ⟨t, w, hloop, hmt⟩ := load_allPresent data files hne hmiss
        unfold load_and_merge_csv_files at herr
        rw [hloop] at herr
        have herr' : (if t.size = 0 then (Except.error PyErr.ioError :
            Except PyErr (DataFrame × List String)) else .ok (t, w)) =
            .error .ioError := herr
        by_cases hsz : t.size = 0
        · exact Or.inr ⟨t, hmt, (size_eq_zero_iff t).mp hsz⟩
        · rw [if_neg hsz] at herr'
          cases herr'
    · intro h
      by_cases hmiss : ∃ p ∈ data, files p.2.csv_file = none
      · unfold load_and_merge_csv_files
        rw [loadLoop_missing data files none [] hmiss]
      · push_neg at hmiss
        rcases h with h | ⟨t, hmt, hrows⟩
        · obtain ⟨p, hp, hnone⟩ := h
          exact absurd hnone (hmiss p hp)
        · obtain ⟨t', w, hloop, hmt'⟩ := load_allPresent data files hne hmiss
          rw [hmt] at hmt'
          injection hmt' with ht
          subst ht
          unfold load_and_merge_csv_files
          rw [hloop]
          show (if t.size = 0 then (Except.error PyErr.ioError :
            Except PyErr (DataFrame × List String)) else .ok (t, w)) = .error .ioError
          rw [if_pos ((size_eq_zero_iff t).mpr hrows)]
  · intro t hmt hrows hall
    obtain ⟨t', w, hloop, hmt'⟩ := load_allPresent data files hne hall
    rw [hmt] at hmt'
    injection hmt' with ht
    subst ht
    refine ⟨w, ?_⟩
    unfold load_and_merge_csv_files
    rw [hloop]
    show (if t.size = 0 then (Except.error PyErr.ioError :
      Except PyErr (DataFrame × List String)) else .ok (t, w)) = .ok (t, w)
    rw [if_neg (fun hc => hrows ((size_eq_zero_iff t).mp hc))]

/-- C6 witness: the single-manifest scenario has no missing file and a
non-empty joint table, so the merge returns it. -/
theorem c6_witness :
    ∃ w, load_and_merge_csv_files dpW filesW = .ok (dfW, w) := by
  have h := c6_failure_characterisation dpW filesW (by decide)
  exact h.2 dfW (by decide) (by decide) (by decide)

/-- C1: for every reader freshly constructed and successfully
initialised, and every in-range index `i`, `access(index=i)` returns
resolved index `i` with non-null field→array and field→interp-order
dicts whose key lists both equal the reader's fixed field-name schema
`_names` (hence the same key set for every record), leaving the state
unchanged. -/
theorem c1_explicit_access_schema (names : List String)
    (data_param : List (String × DataSpec)) (task_param : List (String × List String))
    (files : String → Option (List (String × String))) (factory : ImageProps → Image δ)
    (r : ImageReader δ μ ρ) (ol : List (List (String × Image δ)))
    (hinit : initialise_reader (ImageReader.new names) data_param task_param files factory
      = .ok r)
    (hol : r.output_list = some ol) (i : Nat) (hi : i < ol.length)
    (shuffle : Bool) (rng : Nat) (rs : Nat → ρ) :
    ∃ d o,
      layer_op r (some (.pyInt i)) shuffle rng rs = (.ok ((i : Int), some d, some o), r)
      ∧ d.map Prod.fst = r._names ∧ o.map Prod.fst = r._names := by
  obtain ⟨dtl, flw, ol', hdtl, hload, hfl, hr⟩ := initialise_ok _ _ _ _ _ _ hinit
  subst hr
  have holeq : some ol' = some ol := hol
  injection holeq with holeq'
  subst holeq'
  obtain ⟨rec, hrec⟩ : ∃ rec, ol'.get? i = some rec := ⟨_, List.get?_eq_get hi⟩
  have hfl' : mapE (fun idx =>
      mapE (fun p =>
          match create_image flw.1 idx p.2 data_param factory with
          | .error e => .error e
          | .ok img => .ok (p.1, img))
        (input_sources_of names task_param))
      (List.range flw.1.rows.length) = .ok ol' := hfl
  have hkeys : rec.map Prod.fst = (input_sources_of names task_param).map Prod.fst := by
    obtain ⟨idx, _hidx, hbuild⟩ := mapE_ok_mem hfl' rec (List.get?_mem hrec)
    refine mapE_keys Prod.fst ?_ hbuild
    intro a b hab
    cases hc : create_image flw.1 idx a.2 data_param factory with
    | error e =>
      rw [hc] at hab
      cases hab
    | ok img =>
      rw [hc] at hab
      injection hab with h'
      rw [← h']
  refine ⟨rec.map (fun p => (p.1, p.2.get_data)),
    rec.map (fun p => (p.1, p.2.interp_order)), ?_, ?_, ?_⟩
  · rw [layer_op_some]
    exact layer_op_fetch_valid _ ol' rfl i rec hrec rs
  · rw [List.map_map,
      show (Prod.fst ∘ fun p : String × Image δ => (p.1, p.2.get_data)) = Prod.fst from
        funext fun p => rfl,
      hkeys, input_sources_keys]
    rfl
  · rw [List.map_map,
      show (Prod.fst ∘ fun p : String × Image δ => (p.1, p.2.interp_order)) = Prod.fst from
        funext fun p => rfl,
      hkeys, input_sources_keys]
    rfl

/-- C1 witness: the concrete one-record scenario serves index 0 with
both dicts keyed by the schema `["image"]`. -/
theorem c1_witness :
    ∃ d o,
      layer_op rW (some (.pyInt (0 : Nat))) true 3 (fun _ => 0) =
        (.ok (((0 : Nat) : Int), some d, some o), rW)
      ∧ d.map Prod.fst = rW._names ∧ o.map Prod.fst = rW._names := by
  have h := c1_explicit_access_schema ["image"] dpW tpW filesW factoryW rW
    [[("image", imgW)]] rfl rfl 0 (by decide) true 3 (fun _ => 0)
  exact h

/-- C2 witness: on the concrete one-record reader, the first sequential
call serves index 0 and the second returns the sentinel. -/
theorem c2_witness :
    (∀ i : Nat, i < [[("image", imgW)]].length → ∃ d o,
      (layer_op (seqIter rW (fun _ => 0) i) none false 0 (fun _ => 0)).1 =
        .ok ((i : Int), some d, some o))
    ∧ (layer_op (seqIter rW (fun _ => 0) [[("image", imgW)]].length) none false 0
        (fun _ => 0)).1 = .ok (-1, none, none) := by
  have h := c2_sequential_scan rW [[("image", imgW)]] (fun _ => 0) rfl rfl
  exact h

/-- C3 witness: the string index `"z"` fails `int(·)` coercion and gets
the sentinel on the concrete reader. -/
theorem c3_witness :
    layer_op rW (some (.pyStr "z")) true 0 (fun _ => 0) = (.ok (-1, none, none), rW) := by
  exact c3_invalid_index_sentinel rW [[("image", imgW)]] rfl (.pyStr "z") true 0 (fun _ => 0)
    (Or.inl (by rfl))

/-- C4 witness: the concrete one-record access routes the dicts through
the (empty) pipeline pass, and the stage-step equations hold at concrete
stage lists. -/
theorem c4_witness :
    ((layer_op rW (some (.pyInt (0 : Nat))) true 0 (fun _ => 0)).1 =
      .ok (((0 : Nat) : Int),
        some (run_preprocessors rW.preprocessors (fun _ => 0) 0
                ([("image", imgW)].map (fun p => (p.1, p.2.get_data)))
                ([("image", imgW)].map (fun p => (p.1, p.2.interp_order))) none).1,
        some ([("image", imgW)].map (fun p => (p.1, p.2.interp_order)))))
    ∧ (∀ (xs ys : List (PLayer Nat Nat Nat Nat)) (rs' : Nat → Nat) (k : Nat)
        (d : List (String × Nat)) (itp : List (String × Nat)) (m : Option Nat),
      run_preprocessors (xs ++ ys) rs' k d itp m =
        run_preprocessors ys rs'
          (run_preprocessors xs rs' k d itp m).2.2
          (run_preprocessors xs rs' k d itp m).1
          itp
          (run_preprocessors xs rs' k d itp m).2.1)
    ∧ (∀ (ls : List (PLayer Nat Nat Nat Nat)) (rs' : Nat → Nat) (k : Nat)
        (d : List (String × Nat)) (itp : List (String × Nat)) (m : Option Nat),
      run_preprocessors (.pyNone :: ls) rs' k d itp m =
        run_preprocessors ls rs' k d itp m)
    ∧ (∀ (f : Nat → List (String × Nat) → List (String × Nat) → List (String × Nat))
        (ls : List (PLayer Nat Nat Nat Nat)) (rs' : Nat → Nat) (k : Nat)
        (d : List (String × Nat)) (itp : List (String × Nat)) (m : Option Nat),
      run_preprocessors (.randomised f :: ls) rs' k d itp m =
        run_preprocessors ls rs' (k + 1) (f (rs' k) d itp) itp m)
    ∧ (∀ (g : List (String × Nat) → Option Nat → List (String × Nat) × Option Nat)
        (ls : List (PLayer Nat Nat Nat Nat)) (rs' : Nat → Nat) (k : Nat)
        (d : List (String × Nat)) (itp : List (String × Nat)) (m : Option Nat),
      run_preprocessors (.plain g :: ls) rs' k d itp m =
        run_preprocessors ls rs' k (g d m).1 itp (g d m).2) := by
  exact c4_pipeline_semantics rW [[("image", imgW)]] rfl 0 [("image", imgW)] rfl true 0
    (fun _ => 0)

/-- C7: during initialisation, fields with an absent or empty
task-schema entry are dropped from the active field set; when the
filtered set is empty the initialisation fails fatally (with
`ValueError` when the constructor names were empty, else with the
`AttributeError` arising from merging an empty section collection). -/
theorem c7_active_field_filtering (names : List String) (dp : List (String × DataSpec))
    (tp : List (String × List String)) (files : String → Option (List (String × String)))
    (factory : ImageProps → Image δ) :
    (∀ r : ImageReader δ μ ρ,
      initialise_reader (ImageReader.new names) dp tp files factory = .ok r →
        r._names = active_names names tp ∧ active_names names tp ≠ [])
    ∧ (active_names names tp = [] →
      ∃ e, initialise_reader (ImageReader.new names) dp tp files factory =
        (.error e : Except PyErr (ImageReader δ μ ρ))) := by
  have hisrc : active_names names tp = [] →
      input_sources_of (ImageReader.new (δ := δ) (μ := μ) (ρ := ρ) names)._names tp = [] := by
    intro hact
    show input_sources_of names tp = []
    unfold input_sources_of
    rw [hact]
    rfl
  constructor
  · intro r hinit
    obtain ⟨dtl, flw, ol, hdtl, hload, hfl, hr⟩ := initialise_ok _ _ _ _ _ _ hinit
    constructor
    · rw [hr]
      rfl
    · intro hact
      rw [hisrc hact] at hdtl
      have hdtl' : (Except.ok ([] : List (String × DataSpec)) :
          Except PyErr (List (String × DataSpec))) = .ok dtl := hdtl
      injection hdtl' with h'
      subst h'
      have hload' : (Except.error PyErr.attributeError :
          Except PyErr (DataFrame × List String)) = .ok flw := hload
      cases hload'
  · intro hact
    by_cases hnames : (ImageReader.new (δ := δ) (μ := μ) (ρ := ρ) names)._names.isEmpty
    · refine ⟨.valueError, ?_⟩
      unfold initialise_reader
      rw [if_pos hnames]
    · refine ⟨.attributeError, ?_⟩
      unfold initialise_reader
      rw [if_neg hnames, hisrc hact]
      rfl

/-- C7 witness: the concrete scenario keeps exactly the field `image`,
whose task entry is non-empty, and the active set is non-empty. -/
theorem c7_witness :
    rW._names = active_names ["image"] tpW ∧ active_names ["image"] tpW ≠ [] := by
  have h := c7_active_field_filtering (δ := Nat) (μ := Nat) (ρ := Nat)
    ["image"] dpW tpW filesW factoryW
  exact h.1 rW rfl

/-- C8: `shapes` and `tf_dtypes` raise the not-initialised
`RuntimeError` on an empty or uninitialised catalog; a successful call
is idempotent (a second call returns the identical value and state); and
on a falsy cache the value is computed from record 0 and memoized into
the state. -/
theorem c8_shape_dtype_cache (r : ImageReader δ μ ρ) :
    ((r.output_list = none ∨ r.output_list = some []) →
      ImageReader.shapes r = (.error .runtimeError, r)
        ∧ ImageReader.tf_dtypes r = (.error .runtimeError, r))
    ∧ (∀ v r', ImageReader.shapes r = (.ok v, r') → ImageReader.shapes r' = (.ok v, r'))
    ∧ (∀ v r', ImageReader.tf_dtypes r = (.ok v, r') → ImageReader.tf_dtypes r' = (.ok v, r'))
    ∧ (∀ (first : List (String × Image δ)) rest, r.output_list = some (first :: rest) →
        (r._shapes = none ∨ r._shapes = some []) →
        ∀ d, computeFieldMap first r._names Image.shape = .ok d →
          ImageReader.shapes r = (.ok d, { r with _shapes := some d }))
    ∧ (∀ (first : List (String × Image δ)) rest, r.output_list = some (first :: rest) →
        (r._dtypes = none ∨ r._dtypes = some []) →
        ∀ d, computeFieldMap first r._names infer_tf_dtypes = .ok d →
          ImageReader.tf_dtypes r = (.ok d, { r with _dtypes := some d })) := by
  refine ⟨fun h => ⟨shapes_uninitialised r h, dtypes_uninitialised r h⟩, ?_, ?_,
    fun first rest hol hsh d hcomp => shapes_computed r first rest hol hsh d hcomp,
    fun first rest hol hsh d hcomp => dtypes_computed r first rest hol hsh d hcomp⟩
  · intro v r' h
    cases holist : r.output_list with
    | none =>
      rw [shapes_uninitialised r (Or.inl holist)] at h
      simp at h
    | some ol =>
      cases ol with
      | nil =>
        rw [shapes_uninitialised r (Or.inr holist)] at h
        simp at h
      | cons first rest =>
        cases hshape : r._shapes with
        | some s =>
          cases s with
          | cons x xs =>
            rw [shapes_cached r first rest x xs holist hshape] at h
            simp only [Prod.mk.injEq] at h
            obtain ⟨h1, h2⟩ := h
            injection h1 with h1'
            subst h1'
            subst h2
            exact shapes_cached r first rest x xs holist hshape
          | nil =>
            cases hcomp : computeFieldMap first r._names Image.shape with
            | error e =>
              rw [shapes_computed_error r first rest holist (Or.inr hshape) e hcomp] at h
              simp at h
            | ok d =>
              rw [shapes_computed r first rest holist (Or.inr hshape) d hcomp] at h
              simp only [Prod.mk.injEq] at h
              obtain ⟨h1, h2⟩ := h
              injection h1 with h1'
              subst h1'
              subst h2
              cases d with
              | nil =>
                rw [shapes_computed { r with _shapes := some [] } first rest holist
                  (Or.inr rfl) [] hcomp]
              | cons y ys =>
                exact shapes_cached { r with _shapes := some (y :: ys) } first rest y ys
                  holist rfl
        | none =>
          cases hcomp : computeFieldMap first r._names Image.shape with
          | error e =>
            rw [shapes_computed_error r first rest holist (Or.inl hshape) e hcomp] at h
            simp at h
          | ok d =>
            rw [shapes_computed r first rest holist (Or.inl hshape) d hcomp] at h
            simp only [Prod.mk.injEq] at h
            obtain ⟨h1, h2⟩ := h
            injection h1 with h1'
            subst h1'
            subst h2
            cases d with
            | nil =>
              rw [shapes_computed { r with _shapes := some [] } first rest holist
                (Or.inr rfl) [] hcomp]
            | cons y ys =>
              exact shapes_cached { r with _shapes := some (y :: ys) } first rest y ys
                holist rfl
  · intro v r' h
    cases holist : r.output_list with
    | none =>
      rw [dtypes_uninitialised r (Or.inl holist)] at h
      simp at h
    | some ol =>
      cases ol with
      | nil =>
        rw [dtypes_uninitialised r (Or.inr holist)] at h
        simp at h
      | cons first rest =>
        cases hshape : r._dtypes with
        | some s =>
          cases s with
          | cons x xs =>
            rw [dtypes_cached r first rest x xs holist hshape] at h
            simp only [Prod.mk.injEq] at h
            obtain ⟨h1, h2⟩ := h
            injection h1 with h1'
            subst h1'
            subst h2
            exact dtypes_cached r first rest x xs holist hshape
          | nil =>
            cases hcomp : computeFieldMap first r._names infer_tf_dtypes with
            | error e =>
              rw [dtypes_computed_error r first rest holist (Or.inr hshape) e hcomp] at h
              simp at h
            | ok d =>
              rw [dtypes_computed r first rest holist (Or.inr hshape) d hcomp] at h
              simp only [Prod.mk.injEq] at h
              obtain ⟨h1, h2⟩ := h
              injection h1 with h1'
              subst h1'
              subst h2
              cases d with
              | nil =>
                rw [dtypes_computed { r with _dtypes := some [] } first rest holist
                  (Or.inr rfl) [] hcomp]
              | cons y ys =>
                exact dtypes_cached { r with _dtypes := some (y :: ys) } first rest y ys
                  holist rfl
        | none =>
          cases hcomp : computeFieldMap first r._names infer_tf_dtypes with
          | error e =>
            rw [dtypes_computed_error r first rest holist (Or.inl hshape) e hcomp] at h
            simp at h
          | ok d =>
            rw [dtypes_computed r first rest holist (Or.inl hshape) d hcomp] at h
            simp only [Prod.mk.injEq] at h
            obtain ⟨h1, h2⟩ := h
            injection h1 with h1'
            subst h1'
            subst h2
            cases d with
            | nil =>
              rw [dtypes_computed { r with _dtypes := some [] } first rest holist
                (Or.inr rfl) [] hcomp]
            | cons y ys =>
              exact dtypes_cached { r with _dtypes := some (y :: ys) } first rest y ys
                holist rfl

/-- C8 witness: on the concrete reader the caches are computed from
record 0 and memoized. -/
theorem c8_witness :
    ImageReader.shapes rW = (.ok [("image", [4])], { rW with _shapes := some [("image", [4])] })
    ∧ ImageReader.tf_dtypes rW =
      (.ok [("image", .int32)], { rW with _dtypes := some [("image", .int32)] }) := by
  have h := c8_shape_dtype_cache rW
  exact ⟨h.2.2.2.1 [("image", imgW)] [] rfl (Or.inl rfl) [("image", [4])] rfl,
    h.2.2.2.2 [("image", imgW)] [] rfl (Or.inl rfl) [("image", TfDtype.int32)] rfl⟩

/-- C10 witness: on the concrete empty-catalog reader, random mode
raises while explicit and sequential modes return the sentinel. -/
theorem c10_witness :
    layer_op rE none true 5 (fun _ => 0) = (.error .valueError, rE)
    ∧ layer_op rE (some (.pyInt 7)) false 5 (fun _ => 0) = (.ok (-1, none, none), rE)
    ∧ (layer_op rE none false 5 (fun _ => 0)).1 = .ok (-1, none, none) := by
  exact c10_empty_catalog_random rE rfl (.pyInt 7) false 5 (fun _ => 0)

end Claims

end NiftyNet
